import Mathlib

/-!
Verification of the expense-receipt classification-and-filing pipeline
(`actions.ts`): region-failover extraction client (`callGemini`),
year-based routing plus ordered category fallback (`findFolder`,
`resolveCategoryFolder`, `CATEGORY_FALLBACKS`), and the per-file / per-PDF-page
filing orchestrators (`processReceipt`, `processPdf`).

The JavaScript code is shallowly embedded: remote calls (model endpoint,
Drive queries, uploads) are oracles passed in as parameters, strings are
Lean `String`s manipulated through their character lists, and JS truthiness
is modelled explicitly where the source relies on it (`x || d`, `if (id)`,
`?? `).
-/

namespace ForeverFinance

/-! ## Character and numeral helpers (JS string semantics) -/

/-- The ASCII digit character for `d` (`0 ≤ d ≤ 9`). -/
def digitCh (d : Nat) : Char := Char.ofNat (48 + d)

/-- Decimal digit test, as in JS `parseInt`'s radix-10 scan. -/
def isDigitCh (c : Char) : Bool := 48 ≤ c.toNat && c.toNat ≤ 57

/-- Numeric value of a digit character. -/
def digitVal (c : Char) : Nat := c.toNat - 48

/-- Value of a string of decimal digits, most significant first. -/
def digitsVal (cs : List Char) : Nat :=
  cs.foldl (fun a c => a * 10 + digitVal c) 0

/-- Decimal digits of `n`, most significant first (fuel-driven so that the
kernel can evaluate it). -/
def natDigitsAux : Nat → Nat → List Char
  | 0, _ => []
  | fuel + 1, n =>
    if n < 10 then [digitCh n] else natDigitsAux fuel (n / 10) ++ [digitCh (n % 10)]

/-- Decimal digits of `n`, most significant first. -/
def natDigits (n : Nat) : List Char := natDigitsAux (n + 1) n

/-- Decimal rendering of a natural number. -/
def natStr (n : Nat) : String := ⟨natDigits n⟩

/-- Zero-padded two-digit rendering, as in an ISO date's month field. -/
def pad2ch (n : Nat) : List Char := if n < 10 then '0' :: natDigits n else natDigits n

/-- JS `String.prototype.split(sep)` for a single-character separator. -/
def splitOnChar (sep : Char) : List Char → List (List Char)
  | [] => [[]]
  | c :: cs =>
    match splitOnChar sep cs with
    | [] => [[]]
    | g :: gs => if c = sep then [] :: g :: gs else (c :: g) :: gs

/-- JS `parseInt(s, 10)` for leading digits: `none` models `NaN`. -/
def parseDigits (cs : List Char) : Option Nat :=
  let ds := cs.takeWhile isDigitCh
  if ds.isEmpty then none else some (digitsVal ds)

/-- JS `parseInt(s, 10)`: skip leading spaces, optional sign, leading digits;
`none` models `NaN`. -/
def parseIntJS (s : String) : Option Int :=
  match s.data.dropWhile (fun c => c == ' ') with
  | [] => none
  | c :: rest =>
    if c = '-' then (parseDigits rest).map (fun v => -(v : Int))
    else if c = '+' then (parseDigits rest).map (fun v => (v : Int))
    else (parseDigits (c :: rest)).map (fun v => (v : Int))

/-- JS `s.slice(-2)`: the last two characters (the whole string if shorter). -/
def sliceLast2 (s : String) : String := ⟨s.data.drop (s.data.length - 2)⟩

/-- JS `s.toLowerCase()` (ASCII range, which is what the `.pdf` check
needs). -/
def toLowerJS (s : String) : String := ⟨s.data.map Char.toLower⟩

/-- JS `s.endsWith(suffix)`. -/
def endsWithJS (s sfx : String) : Bool := sfx.data.isSuffixOf s.data

/-- JS `x || d` on an optional string: `null`/`undefined` and `""` are falsy. -/
def orElseStr (o : Option String) (d : String) : String :=
  match o with
  | none => d
  | some s => if s = "" then d else s

/-! ## Drive model: `findFolder`, `listChildFolders`, category fallback -/

/-- One non-trashed folder entry of the remote store: its parent's id, its
name and its own id. -/
structure Folder where
  parent : String
  name : String
  id : String
deriving Repr, DecidableEq

/-- The remote store's folder entries, in the order the search API lists
them. -/
abbrev Drive := List Folder

/-- Source `listChildFolders(parentId)`: non-trashed folders directly under
`parentId`. -/
def listChildFolders (d : Drive) (parentId : String) : List Folder :=
  d.filter (fun f => f.parent == parentId)

/-- Source `findFolder(name, parentId)`: `pageSize: 1` query, so the first match;
`null` when absent. -/
def findFolder (d : Drive) (name parentId : String) : Option String :=
  (((listChildFolders d parentId).filter (fun f => f.name == name)).head?).map Folder.id

/-- The static `CATEGORY_FALLBACKS` table: category → ordered candidate
directory names. -/
def CATEGORY_FALLBACKS : List (String × List String) :=
  [("会議費", ["会議費", "3-領収書", "その他", "7-その他"]),
   ("交通費", ["交通費", "3-領収書", "その他", "7-その他"]),
   ("接待交際費", ["接待交際費", "3-領収書", "その他", "7-その他"]),
   ("消耗品費", ["消耗品費", "3-領収書", "その他", "7-その他"]),
   ("通信費", ["通信費", "3-領収書", "その他", "7-その他"]),
   ("その他", ["その他", "7-その他", "3-領収書"])]

/-- Source `CATEGORY_FALLBACKS[category] ?? [category, '3-領収書', 'その他', '7-その他']`. -/
def candidatesFor (category : String) : List String :=
  ((CATEGORY_FALLBACKS.find? (fun e => e.1 == category)).map Prod.snd).getD
    [category, "3-領収書", "その他", "7-その他"]

/-- JS `new Map(entries).get(name)`: on duplicate keys the last entry wins. -/
def folderMapGet (folders : List Folder) (name : String) : Option String :=
  ((folders.filter (fun f => f.name == name)).getLast?).map Folder.id

/-- Source `resolveCategoryFolder(category, parentId)`: list the children once, try
the fallback candidates in order (a candidate counts as present when
`folderMap.get(name)` is truthy), and otherwise fail listing the names
actually present (JS `filter(Boolean)` drops empty names). -/
def resolveCategoryFolder (d : Drive) (category parentId : String) :
    Except String String :=
  let folders := listChildFolders d parentId
  match (candidatesFor category).findSome? (fun name =>
      match folderMapGet folders name with
      | some id => if id = "" then none else some id
      | none => none) with
  | some id => Except.ok id
  | none =>
      Except.error ("カテゴリフォルダが見つかりません: " ++ category ++ ". 利用可能: " ++
        String.intercalate ", " ((folders.map Folder.name).filter (fun n => n != "")))

/-- The designated legacy directory for years up to the cutoff. -/
def legacyFolderName : String := "25年までの経費"

/-- The parent-directory routing block shared by `processReceipt` and
`processPdf` (lines 303-314 and 382-393): split the date string on `-`,
`parseInt` the year (a `NaN` year fails the `<= 2025` comparison), route to
the legacy folder for years up to 2025 and to the `yy + mm` folder
otherwise; both folders must already exist (a falsy id is a failure naming
the expected folder) and nothing is ever created. -/
def routeParentFolder (d : Drive) (rootId : String) (dateStr : String) :
    Except String String :=
  let parts := splitOnChar '-' dateStr.data
  let yyyy : String := ⟨parts.headD []⟩
  let mm : Option String := (parts[1]?).map (fun l => (⟨l⟩ : String))
  let yearLe2025 : Bool :=
    match parseIntJS yyyy with
    | some y => decide (y ≤ 2025)
    | none => false
  if yearLe2025 then
    match findFolder d legacyFolderName rootId with
    | some fid =>
        if fid = "" then Except.error "「25年までの経費」フォルダが見つかりません"
        else Except.ok fid
    | none => Except.error "「25年までの経費」フォルダが見つかりません"
  else
    let yy := sliceLast2 yyyy
    let yearMonthFolder := yy ++ mm.getD "undefined"
    match findFolder d yearMonthFolder rootId with
    | some fid =>
        if fid = "" then Except.error ("月フォルダが見つかりません: " ++ yearMonthFolder)
        else Except.ok fid
    | none => Except.error ("月フォルダが見つかりません: " ++ yearMonthFolder)

/-! ## Extraction client: `callGemini` with region failover and 429 retry -/

/-- The structured fields parsed from the model's JSON reply; each may be
absent. -/
structure RawReceipt where
  date : Option String
  amount : Option Int
  vendor : Option String
  category : Option String
deriving Repr, DecidableEq

/-- One HTTP response from a region endpoint: status, `res.text()` body, and
the `json.candidates?.[0]?.content?.parts?.[0]?.text` payload (`none` when
that optional chain is `undefined`). -/
structure HttpResponse where
  status : Nat
  body : String
  text : Option String
deriving Repr, DecidableEq

/-- Outcome of one pass over the location list inside an attempt. -/
inductive InnerResult where
  | success (data : RawReceipt)
  | thrown (msg : String)
  | all429 (last : Option String)
deriving Repr, DecidableEq

/-- Source constant `maxAttempts = 2`. -/
def geminiMaxAttempts : Nat := 2

/-- Source backoff `waitMs = 800 * (attempt + 1)`. -/
def backoffWaitMs (attempt : Nat) : Nat := 800 * (attempt + 1)

/-- The inner `for (const location of locations)` loop of one attempt:
`resp i` is location `i`'s response, `parse` is `JSON.parse`.  A 429
records its body and moves on, any other non-2xx status throws
immediately, a 2xx with an empty payload throws, otherwise the parsed data
is returned.  Also returns the list of location indices actually
requested. -/
def runLocations (resp : Nat → HttpResponse) (parse : String → Except String RawReceipt) :
    Nat → Nat → Option String → InnerResult × List Nat
  | _, 0, last429 => (InnerResult.all429 last429, [])
  | idx, n + 1, _last429 =>
    let r := resp idx
    if r.status = 429 then
      let rec429 := runLocations resp parse (idx + 1) n (some r.body)
      (rec429.1, idx :: rec429.2)
    else if 200 ≤ r.status ∧ r.status ≤ 299 then
      match r.text with
      | none => (InnerResult.thrown "AIからの応答が空です", [idx])
      | some t =>
          if t = "" then (InnerResult.thrown "AIからの応答が空です", [idx])
          else
            match parse t with
            | Except.ok d => (InnerResult.success d, [idx])
            | Except.error m => (InnerResult.thrown m, [idx])
    else
      (InnerResult.thrown ("Vertex AI error (" ++ toString r.status ++ "): " ++ r.body), [idx])

/-- The observable outcome of one `callGemini` call: the returned data or
thrown message, the `(attempt, location)` pairs requested, and the backoff
delays (ms) actually waited. -/
structure CallOutcome where
  result : Except String RawReceipt
  requests : List (Nat × Nat)
  waits : List Nat
deriving Repr

/-- The outer `for (let attempt = 0; attempt < maxAttempts; attempt++)` loop,
with `fuel = maxAttempts - attempt` so the recursion is structural; running
out of fuel is the unreachable trailing `リトライ上限` throw. -/
def callGeminiAttempts (resp : Nat → Nat → HttpResponse)
    (parse : String → Except String RawReceipt) (numLocs : Nat) :
    Nat → Nat → CallOutcome
  | _, 0 => ⟨Except.error "リトライ上限に達しました", [], []⟩
  | attempt, fuel + 1 =>
    let inner := runLocations (resp attempt) parse 0 numLocs none
    let reqs := inner.2.map (fun i => (attempt, i))
    match inner.1 with
    | InnerResult.success d => ⟨Except.ok d, reqs, []⟩
    | InnerResult.thrown m => ⟨Except.error m, reqs, []⟩
    | InnerResult.all429 last429 =>
      if attempt < geminiMaxAttempts - 1 then
        let rest := callGeminiAttempts resp parse numLocs (attempt + 1) fuel
        ⟨rest.result, reqs ++ rest.requests, backoffWaitMs attempt :: rest.waits⟩
      else
        ⟨Except.error ("Vertex AI error (429): " ++ last429.getD "Resource exhausted"),
          reqs, []⟩

/-- Source `callGemini`: try every location in order within an attempt, retrying
only on all-429 attempts, at most `geminiMaxAttempts` times.  `numLocs` is
the length of the de-duplicated location list. -/
def callGemini (resp : Nat → Nat → HttpResponse)
    (parse : String → Except String RawReceipt) (numLocs : Nat) : CallOutcome :=
  callGeminiAttempts resp parse numLocs 0 geminiMaxAttempts

/-! ## Filing orchestrator: `processReceipt` and `processPdf` -/

/-- The durable outcome of filing one page (`ReceiptData` in the source). -/
structure ReceiptData where
  date : String
  amount : Int
  vendor : String
  category : String
  fileName : String
deriving Repr, DecidableEq

/-- The value returned to the caller (`{ success, message, data?, results? }`). -/
structure ProcResult where
  success : Bool
  message : String
  data : Option ReceiptData
  results : Option (List ReceiptData)
deriving Repr, DecidableEq

/-- Externally visible side effects, for stating what a run did and did not
touch: a model call with the page bytes, a Drive listing query, the PDF
page-splitting call, and an upload. -/
inductive Effect where
  | geminiCall (bytes : List Nat) (mime : String)
  | driveQuery (parentId : String)
  | pdfConvert
  | upload (name : String) (folderId : String) (bytes : List Nat) (mime : String)
deriving Repr, DecidableEq

/-- The uploaded file as the server action sees it. -/
structure FileInput where
  name : String
  mimeType : String
  size : Nat
  bytes : List Nat
deriving Repr, DecidableEq

/-- Process-wide configuration: the Drive contents, the root folder id,
today's date string (`new Date().toISOString().split('T')[0]`), and the
length of the de-duplicated location list. -/
structure Env where
  drive : Drive
  rootId : String
  today : String
  numLocations : Nat

/-- The remote collaborators: per page (0 for a single image, 1-based for
PDF pages) the model endpoint's responses by attempt and location,
`JSON.parse`, and the Drive upload's outcome keyed by name, parent, bytes
and MIME type. -/
structure Oracles where
  gemini : Nat → Nat → Nat → HttpResponse
  parse : String → Except String RawReceipt
  upload : String → String → List Nat → String → Except String Unit

/-- The single-image path of `processReceipt` (after the PDF check): call
the model, default the fields (`||` for date/category/vendor in the
filename, `??` for the stored amount/vendor), route by year, resolve the
category folder, upload, and build the `ReceiptData`.  Every thrown error
is caught by the surrounding `try` and becomes `{ success: false }`. -/
def processSinglePage (env : Env) (o : Oracles) (f : FileInput) :
    ProcResult × List Effect :=
  let mime := if f.mimeType = "" then "image/jpeg" else f.mimeType
  let gEff := Effect.geminiCall f.bytes mime
  match (callGemini (o.gemini 0) o.parse env.numLocations).result with
  | Except.error e => (⟨false, e, none, none⟩, [gEff])
  | Except.ok data =>
    let dateStr := orElseStr data.date env.today
    let categoryFolder := orElseStr data.category "その他"
    let newFileName :=
      dateStr ++ "_" ++ categoryFolder ++ "_" ++ orElseStr data.vendor "不明" ++ ".jpg"
    match routeParentFolder env.drive env.rootId dateStr with
    | Except.error e => (⟨false, e, none, none⟩, [gEff, Effect.driveQuery env.rootId])
    | Except.ok parentFolderId =>
      match resolveCategoryFolder env.drive categoryFolder parentFolderId with
      | Except.error e =>
          (⟨false, e, none, none⟩,
           [gEff, Effect.driveQuery env.rootId, Effect.driveQuery parentFolderId])
      | Except.ok targetFolderId =>
        match o.upload newFileName targetFolderId f.bytes mime with
        | Except.error e =>
            (⟨false, e, none, none⟩,
             [gEff, Effect.driveQuery env.rootId, Effect.driveQuery parentFolderId,
              Effect.upload newFileName targetFolderId f.bytes mime])
        | Except.ok _ =>
            (⟨true, "「" ++ newFileName ++ "」を保存しました！",
              some ⟨dateStr, data.amount.getD 0, data.vendor.getD "不明",
                    categoryFolder, newFileName⟩, none⟩,
             [gEff, Effect.driveQuery env.rootId, Effect.driveQuery parentFolderId,
              Effect.upload newFileName targetFolderId f.bytes mime])

/-- The body of one iteration of `processPdf`'s page loop (`pageNum` is the
1-based page number): identical to the single-image path except the page
bytes, the `image/png` MIME type and the `_p{pageNum}.png` filename. -/
def processPdfPage (env : Env) (o : Oracles) (pageNum : Nat) (pageBytes : List Nat) :
    Except String ReceiptData × List Effect :=
  let gEff := Effect.geminiCall pageBytes "image/png"
  match (callGemini (o.gemini pageNum) o.parse env.numLocations).result with
  | Except.error e => (Except.error e, [gEff])
  | Except.ok data =>
    let dateStr := orElseStr data.date env.today
    let categoryFolder := orElseStr data.category "その他"
    let newFileName :=
      dateStr ++ "_" ++ categoryFolder ++ "_" ++ orElseStr data.vendor "不明" ++
        "_p" ++ toString pageNum ++ ".png"
    match routeParentFolder env.drive env.rootId dateStr with
    | Except.error e => (Except.error e, [gEff, Effect.driveQuery env.rootId])
    | Except.ok parentFolderId =>
      match resolveCategoryFolder env.drive categoryFolder parentFolderId with
      | Except.error e =>
          (Except.error e,
           [gEff, Effect.driveQuery env.rootId, Effect.driveQuery parentFolderId])
      | Except.ok targetFolderId =>
        match o.upload newFileName targetFolderId pageBytes "image/png" with
        | Except.error e =>
            (Except.error e,
             [gEff, Effect.driveQuery env.rootId, Effect.driveQuery parentFolderId,
              Effect.upload newFileName targetFolderId pageBytes "image/png"])
        | Except.ok _ =>
            (Except.ok ⟨dateStr, data.amount.getD 0, data.vendor.getD "不明",
                        categoryFolder, newFileName⟩,
             [gEff, Effect.driveQuery env.rootId, Effect.driveQuery parentFolderId,
              Effect.upload newFileName targetFolderId pageBytes "image/png"])

/-- The `for await (const pageImage of pages)` loop: each page's `try/catch`
appends one `ReceiptData` to `results` or one `ページN: msg` string to
`errors`; a page's failure never stops the loop. -/
def processPdfLoop (perPage : Nat → List Nat → Except String ReceiptData × List Effect) :
    List (List Nat) → Nat → List ReceiptData × List String × List Effect
  | [], _ => ([], [], [])
  | p :: rest, pagesDone =>
    let pageNum := pagesDone + 1
    let page := perPage pageNum p
    let tail := processPdfLoop perPage rest pageNum
    match page.1 with
    | Except.ok rd => (rd :: tail.1, tail.2.1, page.2 ++ tail.2.2)
    | Except.error m =>
        (tail.1, ("ページ" ++ toString pageNum ++ ": " ++ m) :: tail.2.1,
         page.2 ++ tail.2.2)

/-- The per-page accumulation of `processPdf`, before the final report. -/
def processPdfCore (env : Env) (o : Oracles) (pages : List (List Nat)) :
    List ReceiptData × List String × List Effect :=
  processPdfLoop (processPdfPage env o) pages 0

/-- Source `processPdf`: split the PDF into page images, process every page, and
report failure only when no page succeeded; otherwise report how many of
the pages were saved (plus a failed-page count when some failed). -/
def processPdf (env : Env) (o : Oracles) (pages : List (List Nat)) :
    ProcResult × List Effect :=
  let core := processPdfCore env o pages
  let results := core.1
  let errors := core.2.1
  let pageNum := pages.length
  if results.length = 0 then
    (⟨false, "PDF処理失敗: " ++ String.intercalate ", " errors, none, none⟩,
     Effect.pdfConvert :: core.2.2)
  else
    (⟨true,
      "PDF " ++ toString pageNum ++ "ページ中" ++ toString results.length ++
        "ページ保存完了" ++
        (if errors.length > 0 then " (" ++ toString errors.length ++ "ページ失敗)" else ""),
      none, some results⟩,
     Effect.pdfConvert :: core.2.2)

/-- Source `processReceipt`: reject a missing or empty file before doing anything,
then dispatch PDFs (by MIME type or lowercased `.pdf` name suffix) to
`processPdf` and everything else to the single-image path. -/
def processReceipt (env : Env) (o : Oracles) (pages : List (List Nat))
    (file : Option FileInput) : ProcResult × List Effect :=
  match file with
  | none => (⟨false, "ファイルが空です", none, none⟩, [])
  | some f =>
    if f.size = 0 then (⟨false, "ファイルが空です", none, none⟩, [])
    else if f.mimeType == "application/pdf" || endsWithJS (toLowerJS f.name) ".pdf" then
      processPdf env o pages
    else
      processSinglePage env o f

/-! ## Spec-side definitions (written from the specification's words) -/

/-- The ISO `YYYY-MM-DD` rendering of a calendar date. -/
def isoDate (y m d : Nat) : String :=
  ⟨natDigits y ++ '-' :: (pad2ch m ++ '-' :: pad2ch d)⟩

/-- The spec's year-month directory name: the two-digit year concatenated
with the zero-padded two-digit month (year 2026, month 1 → "2601"). -/
def yearMonthName (y m : Nat) : String := ⟨pad2ch (y % 100) ++ pad2ch m⟩

/-- The spec's filename convention for a single-page source. -/
def specSingleName (date category vendor : String) : String :=
  date ++ "_" ++ category ++ "_" ++ vendor ++ ".jpg"

/-- The spec's filename convention for page `p` of a multi-page source. -/
def specPdfName (date category vendor : String) (p : Nat) : String :=
  date ++ "_" ++ category ++ "_" ++ vendor ++ "_p" ++ toString p ++ ".png"

/-- The multi-page dispatch predicate in the claim's words: the file's MIME
type equals `application/pdf` or its name, lowercased, ends with `.pdf`. -/
def isPdfUpload (f : FileInput) : Prop :=
  f.mimeType = "application/pdf" ∨ endsWithJS (toLowerJS f.name) ".pdf" = true

/-! ## Concrete witness fixtures -/

/-- A small Drive: legacy and year-month folders under the root, category
folders beneath them. -/
def wDrive : Drive :=
  [⟨"root", "25年までの経費", "idLegacy"⟩,
   ⟨"root", "2601", "id2601"⟩,
   ⟨"root", "2602", "id2602"⟩,
   ⟨"idLegacy", "transportation", "idTransOld"⟩,
   ⟨"idLegacy", "交通費", "idKotsuOld"⟩,
   ⟨"id2601", "交通費", "idKotsu"⟩,
   ⟨"id2601", "7-その他", "idG7"⟩,
   ⟨"id2602", "その他", "idSonota"⟩]

/-- Witness environment over `wDrive`. -/
def wEnv : Env := ⟨wDrive, "root", "2026-02-03", 2⟩

/-- A parsed reply with every field present. -/
def wRaw : RawReceipt := ⟨some "2026-01-15", some 1200, some "駅前タクシー", some "交通費"⟩

/-- A model endpoint that always answers 200 with payload "T". -/
def wRespOk : Nat → Nat → HttpResponse := fun _ _ => ⟨200, "okbody", some "T"⟩

/-- A parsed reply whose vendor is present but empty. -/
def wRawEmptyVendor : RawReceipt := ⟨some "2026-01-15", some 100, some "", some "交通費"⟩

/-- A `JSON.parse` oracle: "T" parses to `wRaw`, "E" to the all-absent reply,
"V" to the empty-vendor reply, anything else throws. -/
def wParse : String → Except String RawReceipt := fun t =>
  if t = "T" then Except.ok wRaw
  else if t = "E" then Except.ok ⟨none, none, none, none⟩
  else if t = "V" then Except.ok wRawEmptyVendor
  else Except.error "Unexpected token"

/-- An upload oracle that always succeeds. -/
def wUpload : String → String → List Nat → String → Except String Unit :=
  fun _ _ _ _ => Except.ok ()

/-- Oracles where every call succeeds with `wRaw`. -/
def wOracles : Oracles := ⟨fun _ => wRespOk, wParse, wUpload⟩

/-- A model endpoint rate-limited everywhere on attempt 0 and healthy on
attempt 1. -/
def wResp429 : Nat → Nat → HttpResponse := fun a i =>
  if a = 0 then ⟨429, "rate" ++ toString i, none⟩ else ⟨200, "okbody", some "T"⟩

/-- A model endpoint rate-limited at every attempt and location. -/
def wRespAll429 : Nat → Nat → HttpResponse := fun a i =>
  ⟨429, "rate" ++ toString a ++ toString i, none⟩

/-- A model endpoint whose first region fails hard (HTTP 500). -/
def wRespHard : Nat → Nat → HttpResponse := fun _ _ => ⟨500, "boom", none⟩

/-- A model endpoint whose first region is rate-limited and whose second
region fails hard (HTTP 500) on attempt 0. -/
def wRespHardAt1 : Nat → Nat → HttpResponse := fun a i =>
  if a = 0 && i = 0 then ⟨429, "rate0", none⟩ else ⟨500, "boom", none⟩

/-- A model endpoint rate-limited everywhere on attempt 0 and failing hard
(HTTP 502) on attempt 1. -/
def wRespHardA1 : Nat → Nat → HttpResponse := fun a _ =>
  if a = 0 then ⟨429, "rate0", none⟩ else ⟨502, "bad gateway", none⟩

/-- Oracles where only page 2's model call fails (hard error). -/
def wOraclesP2Fail : Oracles :=
  ⟨fun p => if p = 2 then wRespHard else wRespOk, wParse, wUpload⟩

/-- A model endpoint answering with the all-absent reply "E". -/
def wRespE : Nat → Nat → HttpResponse := fun _ _ => ⟨200, "okbody", some "E"⟩

/-- Oracles whose parsed reply has every field absent. -/
def wOraclesE : Oracles := ⟨fun _ => wRespE, wParse, wUpload⟩

/-- A model endpoint answering with the empty-vendor reply "V". -/
def wRespV : Nat → Nat → HttpResponse := fun _ _ => ⟨200, "okbody", some "V"⟩

/-- Oracles whose parsed reply has a present-but-empty vendor. -/
def wOraclesV : Oracles := ⟨fun _ => wRespV, wParse, wUpload⟩

/-- A small non-PDF upload. -/
def wFile : FileInput := ⟨"r.jpg", "image/jpeg", 5, [9]⟩

/-! ## Numeral and string lemmas -/

theorem natDigitsAux_congr :
    ∀ f1 f2 n : Nat, n < f1 → n < f2 → natDigitsAux f1 n = natDigitsAux f2 n := by
  intro f1
  induction f1 with
  | zero => intro f2 n h1 _; omega
  | succ f ih =>
    intro f2 n h1 h2
    cases f2 with
    | zero => omega
    | succ g =>
      by_cases h10 : n < 10
      · simp [natDigitsAux, h10]
      · simp only [natDigitsAux, if_neg h10]
        have hlt : n / 10 < n := by omega
        rw [ih g (n / 10) (by omega) (by omega)]

theorem natDigits_lt10 (n : Nat) (h : n < 10) : natDigits n = [digitCh n] := by
  simp [natDigits, natDigitsAux, h]

theorem natDigits_ge10 (n : Nat) (h : 10 ≤ n) :
    natDigits n = natDigits (n / 10) ++ [digitCh (n % 10)] := by
  have h10 : ¬ n < 10 := by omega
  conv_lhs => rw [natDigits]
  rw [show natDigitsAux (n + 1) n = natDigitsAux n (n / 10) ++ [digitCh (n % 10)] by
    simp only [natDigitsAux, if_neg h10]]
  rw [natDigitsAux_congr n (n / 10 + 1) (n / 10) (by omega) (by omega)]
  rfl

theorem digitCh_isDigit (d : Nat) (h : d < 10) : isDigitCh (digitCh d) = true := by
  interval_cases d <;> decide

theorem digitVal_digitCh (d : Nat) (h : d < 10) : digitVal (digitCh d) = d := by
  interval_cases d <;> decide

theorem natDigits_all_digit (n : Nat) : ∀ c ∈ natDigits n, isDigitCh c = true := by
  induction n using Nat.strong_induction_on with
  | _ n ih =>
    by_cases h : n < 10
    · rw [natDigits_lt10 n h]
      intro c hc
      simp only [List.mem_singleton] at hc
      subst hc
      exact digitCh_isDigit n h
    · rw [natDigits_ge10 n (by omega)]
      intro c hc
      rcases List.mem_append.mp hc with hl | hr
      · exact ih (n / 10) (by omega) c hl
      · simp only [List.mem_singleton] at hr
        subst hr
        exact digitCh_isDigit (n % 10) (by omega)

theorem natDigits_ne_nil (n : Nat) : natDigits n ≠ [] := by
  by_cases h : n < 10
  · rw [natDigits_lt10 n h]; simp
  · rw [natDigits_ge10 n (by omega)]; simp

theorem digitsVal_append_singleton (l : List Char) (c : Char) :
    digitsVal (l ++ [c]) = digitsVal l * 10 + digitVal c := by
  simp [digitsVal, List.foldl_append]

theorem digitsVal_natDigits (n : Nat) : digitsVal (natDigits n) = n := by
  induction n using Nat.strong_induction_on with
  | _ n ih =>
    by_cases h : n < 10
    · rw [natDigits_lt10 n h]
      simp [digitsVal, digitVal_digitCh n h]
    · rw [natDigits_ge10 n (by omega), digitsVal_append_singleton,
        ih (n / 10) (by omega), digitVal_digitCh (n % 10) (by omega)]
      omega

theorem isDigitCh_beq_space (c : Char) (h : isDigitCh c = true) : (c == ' ') = false := by
  by_contra hne
  have : c = ' ' := by
    have := eq_of_beq (a := c) (b := ' ')
    simp only [Bool.not_eq_false] at hne
    exact this hne
  subst this
  simp [isDigitCh] at h

theorem isDigitCh_ne_minus (c : Char) (h : isDigitCh c = true) : c ≠ '-' := by
  intro he; subst he; simp [isDigitCh] at h

theorem isDigitCh_ne_plus (c : Char) (h : isDigitCh c = true) : c ≠ '+' := by
  intro he; subst he; simp [isDigitCh] at h

theorem dropWhile_of_all_false {α : Type} {p : α → Bool} :
    ∀ l : List α, (∀ c ∈ l, p c = false) → l.dropWhile p = l := by
  intro l h
  cases l with
  | nil => rfl
  | cons a t =>
    rw [List.dropWhile_cons, if_neg]
    simp [h a (by simp)]

theorem takeWhile_of_all_true {α : Type} {p : α → Bool} :
    ∀ l : List α, (∀ c ∈ l, p c = true) → l.takeWhile p = l := by
  intro l
  induction l with
  | nil => intro _; rfl
  | cons a t ih =>
    intro h
    rw [List.takeWhile_cons, if_pos (h a (by simp)), ih (fun c hc => h c (by simp [hc]))]

theorem parseDigits_natDigits (n : Nat) : parseDigits (natDigits n) = some n := by
  unfold parseDigits
  rw [takeWhile_of_all_true (natDigits n) (natDigits_all_digit n)]
  rw [if_neg (by simp [List.isEmpty_iff, natDigits_ne_nil n])]
  rw [digitsVal_natDigits]

theorem parseIntJS_natStr (n : Nat) : parseIntJS (natStr n) = some (n : Int) := by
  unfold parseIntJS
  have hdata : (natStr n).data = natDigits n := rfl
  rw [hdata]
  rw [dropWhile_of_all_false (natDigits n)
    (fun c hc => isDigitCh_beq_space c (natDigits_all_digit n c hc))]
  obtain ⟨c, cs, hcons⟩ := List.exists_cons_of_ne_nil (natDigits_ne_nil n)
  have hcdig : isDigitCh c = true := natDigits_all_digit n c (by rw [hcons]; simp)
  rw [hcons]
  simp only [if_neg (isDigitCh_ne_minus c hcdig), if_neg (isDigitCh_ne_plus c hcdig)]
  rw [← hcons, parseDigits_natDigits]
  rfl

theorem splitOnChar_ne_nil (sep : Char) : ∀ l : List Char, splitOnChar sep l ≠ [] := by
  intro l
  induction l with
  | nil => simp [splitOnChar]
  | cons c cs ih =>
    simp only [splitOnChar]
    cases hs : splitOnChar sep cs with
    | nil => simp
    | cons g gs =>
      by_cases hc : c = sep <;> simp [hc]

theorem splitOnChar_no_sep (sep : Char) :
    ∀ l : List Char, (∀ c ∈ l, c ≠ sep) → splitOnChar sep l = [l] := by
  intro l
  induction l with
  | nil => intro _; rfl
  | cons c cs ih =>
    intro h
    simp only [splitOnChar]
    rw [ih (fun x hx => h x (by simp [hx]))]
    simp [h c (by simp)]

theorem splitOnChar_append (sep : Char) :
    ∀ a r : List Char, (∀ c ∈ a, c ≠ sep) →
      splitOnChar sep (a ++ sep :: r) = a :: splitOnChar sep r := by
  intro a
  induction a with
  | nil =>
    intro r _
    simp only [List.nil_append, splitOnChar]
    cases hs : splitOnChar sep r with
    | nil => exact absurd hs (splitOnChar_ne_nil sep r)
    | cons g gs => simp
  | cons c cs ih =>
    intro r h
    simp only [List.cons_append, splitOnChar, List.append_eq]
    rw [ih r (fun x hx => h x (by simp [hx]))]
    simp [h c (by simp)]

theorem pad2ch_all_digit (n : Nat) : ∀ c ∈ pad2ch n, isDigitCh c = true := by
  intro c hc
  unfold pad2ch at hc
  by_cases h : n < 10
  · rw [if_pos h] at hc
    rcases List.mem_cons.mp hc with h0 | hd
    · subst h0; decide
    · exact natDigits_all_digit n c hd
  · rw [if_neg h] at hc
    exact natDigits_all_digit n c hc

theorem isoDate_split (y m d : Nat) :
    splitOnChar '-' (isoDate y m d).data = [natDigits y, pad2ch m, pad2ch d] := by
  have hdata : (isoDate y m d).data = natDigits y ++ '-' :: (pad2ch m ++ '-' :: pad2ch d) := rfl
  rw [hdata]
  rw [splitOnChar_append '-' (natDigits y) _
    (fun c hc => isDigitCh_ne_minus c (natDigits_all_digit y c hc))]
  rw [splitOnChar_append '-' (pad2ch m) _
    (fun c hc => isDigitCh_ne_minus c (pad2ch_all_digit m c hc))]
  rw [splitOnChar_no_sep '-' (pad2ch d)
    (fun c hc => isDigitCh_ne_minus c (pad2ch_all_digit d c hc))]

theorem natDigits_two_digit (y : Nat) (h1 : 10 ≤ y) (h2 : y < 100) :
    natDigits y = [digitCh (y / 10), digitCh (y % 10)] := by
  rw [natDigits_ge10 y h1, natDigits_lt10 (y / 10) (by omega)]
  rfl

theorem natDigits_ge100 (y : Nat) (h : 100 ≤ y) :
    natDigits y = natDigits (y / 100) ++ [digitCh (y / 10 % 10), digitCh (y % 10)] := by
  rw [natDigits_ge10 y (by omega), natDigits_ge10 (y / 10) (by omega)]
  rw [show y / 10 / 10 = y / 100 by omega]
  simp

theorem pad2ch_eq_two_digits (n : Nat) (h : n < 100) :
    pad2ch n = [digitCh (n / 10), digitCh (n % 10)] := by
  unfold pad2ch
  by_cases h10 : n < 10
  · rw [if_pos h10, natDigits_lt10 n h10]
    rw [show n / 10 = 0 by omega, show n % 10 = n by omega]
    rfl
  · rw [if_neg h10, natDigits_two_digit n (by omega) h]

theorem sliceLast2_natStr (y : Nat) (h : 10 ≤ y) :
    sliceLast2 (natStr y) = (⟨pad2ch (y % 100)⟩ : String) := by
  unfold sliceLast2
  have hdata : (natStr y).data = natDigits y := rfl
  rw [hdata]
  by_cases h100 : y < 100
  · rw [natDigits_two_digit y h h100]
    rw [pad2ch_eq_two_digits (y % 100) (by omega)]
    rw [show y % 100 = y by omega]
    rfl
  · rw [natDigits_ge100 y (by omega)]
    rw [show natDigits (y / 100) ++ [digitCh (y / 10 % 10), digitCh (y % 10)] =
      natDigits (y / 100) ++ [digitCh (y / 10 % 10), digitCh (y % 10)] from rfl]
    have hlen : (natDigits (y / 100) ++ [digitCh (y / 10 % 10), digitCh (y % 10)]).length =
        (natDigits (y / 100)).length + 2 := by simp
    rw [hlen, show (natDigits (y / 100)).length + 2 - 2 = (natDigits (y / 100)).length by omega]
    rw [List.drop_left]
    rw [pad2ch_eq_two_digits (y % 100) (by omega)]
    rw [show y % 100 / 10 = y / 10 % 10 by omega, show y % 100 % 10 = y % 10 by omega]

theorem head?_mem {α : Type} {l : List α} {x : α} (h : l.head? = some x) : x ∈ l := by
  cases l with
  | nil => simp at h
  | cons a t => simp at h; simp [h]

theorem findFolder_some (dr : Drive) (name parentId fid : String)
    (h : findFolder dr name parentId = some fid) :
    ∃ f ∈ dr, f.parent = parentId ∧ f.name = name ∧ f.id = fid := by
  unfold findFolder at h
  rw [Option.map_eq_some'] at h
  obtain ⟨f, hhead, hid⟩ := h
  have hmem := head?_mem hhead
  rw [List.mem_filter] at hmem
  obtain ⟨hmem2, hname⟩ := hmem
  unfold listChildFolders at hmem2
  rw [List.mem_filter] at hmem2
  obtain ⟨hmem3, hpar⟩ := hmem2
  exact ⟨f, hmem3, by simpa using hpar, by simpa using hname, hid⟩

theorem routeParentFolder_isoDate (dr : Drive) (root : String) (y m d : Nat) :
    routeParentFolder dr root (isoDate y m d) =
      (if y ≤ 2025 then
        match findFolder dr legacyFolderName root with
        | some fid =>
            if fid = "" then Except.error "「25年までの経費」フォルダが見つかりません"
            else Except.ok fid
        | none => Except.error "「25年までの経費」フォルダが見つかりません"
      else
        match findFolder dr (yearMonthName y m) root with
        | some fid =>
            if fid = "" then Except.error ("月フォルダが見つかりません: " ++ yearMonthName y m)
            else Except.ok fid
        | none => Except.error ("月フォルダが見つかりません: " ++ yearMonthName y m)) := by
  unfold routeParentFolder
  rw [isoDate_split]
  simp only [List.headD_cons, List.getElem?_cons_succ, List.getElem?_cons_zero,
    Option.map_some']
  rw [show (⟨natDigits y⟩ : String) = natStr y from rfl, parseIntJS_natStr]
  by_cases hle : y ≤ 2025
  · have hInt : (y : Int) ≤ 2025 := by exact_mod_cast hle
    simp only [hInt, decide_True, if_pos hle]
    rfl
  · have hInt : ¬ ((y : Int) ≤ 2025) := by exact_mod_cast hle
    simp only [hInt, decide_False, if_neg hle]
    rw [show sliceLast2 (natStr y) ++ Option.getD (some (⟨pad2ch m⟩ : String)) "undefined" =
        yearMonthName y m by
      rw [sliceLast2_natStr y (by omega)]
      rfl]
    rfl

/-! ## Claim C1: year-based routing to the parent directory -/

/-- C1: for every extracted date, routing follows the year rule: a calendar
year up to the legacy cutoff 2025 routes to the designated legacy directory
`25年までの経費` directly under the root regardless of month; a later year
routes to the directory under the root named by the two-digit year followed
by the zero-padded two-digit month; in both cases a returned id always
belongs to a directory already present under the root with the expected
name (nothing is created), and an absent directory makes the operation fail
with a message naming the expected directory. -/
theorem C1_year_routing (dr : Drive) (root : String) (y m d : Nat)
    (_hy1 : 1000 ≤ y) (_hy2 : y ≤ 9999) (hwf : ∀ f ∈ dr, f.id ≠ "") :
    (y ≤ 2025 →
      (∀ fid, findFolder dr legacyFolderName root = some fid →
        (∃ f ∈ dr, f.parent = root ∧ f.name = legacyFolderName ∧ f.id = fid) ∧
        routeParentFolder dr root (isoDate y m d) = Except.ok fid) ∧
      (findFolder dr legacyFolderName root = none →
        routeParentFolder dr root (isoDate y m d) =
          Except.error "「25年までの経費」フォルダが見つかりません")) ∧
    (2025 < y →
      (∀ fid, findFolder dr (yearMonthName y m) root = some fid →
        (∃ f ∈ dr, f.parent = root ∧ f.name = yearMonthName y m ∧ f.id = fid) ∧
        routeParentFolder dr root (isoDate y m d) = Except.ok fid) ∧
      (findFolder dr (yearMonthName y m) root = none →
        routeParentFolder dr root (isoDate y m d) =
          Except.error ("月フォルダが見つかりません: " ++ yearMonthName y m))) := by
  rw [routeParentFolder_isoDate]
  constructor
  · intro hle
    rw [if_pos hle]
    constructor
    · intro fid hfid
      have hex := findFolder_some dr legacyFolderName root fid hfid
      refine ⟨hex, ?_⟩
      rw [hfid]
      obtain ⟨f, hmem, _, _, hid⟩ := hex
      show (if fid = "" then Except.error "「25年までの経費」フォルダが見つかりません"
        else Except.ok fid) = Except.ok fid
      rw [if_neg (hid ▸ hwf f hmem)]
    · intro hnone
      rw [hnone]
  · intro hgt
    rw [if_neg (by omega)]
    constructor
    · intro fid hfid
      have hex := findFolder_some dr (yearMonthName y m) root fid hfid
      refine ⟨hex, ?_⟩
      rw [hfid]
      obtain ⟨f, hmem, _, _, hid⟩ := hex
      show (if fid = "" then Except.error ("月フォルダが見つかりません: " ++ yearMonthName y m)
        else Except.ok fid) = Except.ok fid
      rw [if_neg (hid ▸ hwf f hmem)]
    · intro hnone
      rw [hnone]

/-- Witness for C1 at concrete inputs: a 2024 date routes to the legacy
folder regardless of month, a 2026-01 date routes to the existing "2601"
folder, and the year-month name for 2026-01 is "2601". -/
theorem C1_year_routing_witness :
    routeParentFolder wDrive "root" (isoDate 2024 3 5) = Except.ok "idLegacy" ∧
    routeParentFolder wDrive "root" (isoDate 2026 1 15) = Except.ok "id2601" ∧
    yearMonthName 2026 1 = "2601" := by
  refine ⟨?_, ?_, by decide⟩
  · exact (((C1_year_routing wDrive "root" 2024 3 5 (by decide) (by decide)
      (by decide)).1 (by decide)).1 "idLegacy" (by rfl)).2
  · exact (((C1_year_routing wDrive "root" 2026 1 15 (by decide) (by decide)
      (by decide)).2 (by decide)).1 "id2601" (by rfl)).2

/-! ## Claim C2: ordered category-fallback resolution -/

/-- Counterexample to C8 as stated: the final candidate is not the same
designated catch-all name for every key — the five specific categories end
in `7-その他` but the `その他` entry ends in `3-領収書`. -/
theorem C8_fallback_table_counterexample :
    (candidatesFor "会議費").getLast? = some "7-その他" ∧
    (candidatesFor "その他").getLast? = some "3-領収書" ∧
    ("7-その他" : String) ≠ "3-領収書" := by
  refine ⟨by rfl, by rfl, by decide⟩

/-- C8 amended: every entry of `CATEGORY_FALLBACKS` has a non-empty
candidate list ending in a generic bucket name — `7-その他` for every key
except `その他`, whose list ends in `3-領収書` — and every entry's list
contains the catch-all name `その他`. -/
theorem C8_fallback_table_amended :
    ∀ e ∈ CATEGORY_FALLBACKS,
      e.2 ≠ [] ∧ "その他" ∈ e.2 ∧
      (e.2.getLast? = some "7-その他" ∨ e.2.getLast? = some "3-領収書") ∧
      (e.1 ≠ "その他" → e.2.getLast? = some "7-その他") ∧
      (e.1 = "その他" → e.2.getLast? = some "3-領収書") := by
  decide

/-- Witness for C8 amended, at the `交通費` entry of the table. -/
theorem C8_fallback_table_amended_witness :
    ("交通費", ["交通費", "3-領収書", "その他", "7-その他"]).2 ≠ [] ∧
    ("交通費", ["交通費", "3-領収書", "その他", "7-その他"]).2.getLast? = some "7-その他" := by
  have h := C8_fallback_table_amended ("交通費", ["交通費", "3-領収書", "その他", "7-その他"])
    (by decide)
  exact ⟨h.1, h.2.2.2.1 (by decide)⟩

/-! ## Claims C3 and C4: retry and failover behaviour of `callGemini` -/

theorem runLocations_all429 (resp : Nat → HttpResponse)
    (parse : String → Except String RawReceipt) :
    ∀ (n idx : Nat) (last : Option String),
      (∀ i < n, (resp (idx + i)).status = 429) → 1 ≤ n →
      (runLocations resp parse idx n last).1 =
        InnerResult.all429 (some (resp (idx + (n - 1))).body) := by
  intro n
  induction n with
  | zero => intro idx last _ h1; omega
  | succ k ih =>
    intro idx last h _
    have h0 : (resp idx).status = 429 := by simpa using h 0 (by omega)
    simp only [runLocations, if_pos h0]
    cases k with
    | zero => simp [runLocations]
    | succ kk =>
      have hrec := ih (idx + 1) (some (resp idx).body)
        (fun i hi => by
          rw [show idx + 1 + i = idx + (i + 1) by omega]
          exact h (i + 1) (by omega))
        (by omega)
      rw [hrec, show idx + 1 + (kk + 1 - 1) = idx + (kk + 1 + 1 - 1) by omega]

theorem runLocations_success (resp : Nat → HttpResponse)
    (parse : String → Except String RawReceipt) :
    ∀ (j n idx : Nat) (last : Option String) (t : String) (d2 : RawReceipt),
      (∀ i < j, (resp (idx + i)).status = 429) → j < n →
      200 ≤ (resp (idx + j)).status → (resp (idx + j)).status ≤ 299 →
      (resp (idx + j)).text = some t → t ≠ "" → parse t = Except.ok d2 →
      (runLocations resp parse idx n last).1 = InnerResult.success d2 := by
  intro j
  induction j with
  | zero =>
    intro n idx last t d2 _ hj h200 h299 htext hne hparse
    cases n with
    | zero => omega
    | succ k =>
      rw [show idx + 0 = idx by omega] at h200 h299 htext
      have hne429 : ¬ (resp idx).status = 429 := by omega
      simp only [runLocations, if_neg hne429, if_pos (And.intro h200 h299)]
      rw [htext]
      simp only [if_neg hne]
      rw [hparse]
  | succ jj ih =>
    intro n idx last t d2 h hj h200 h299 htext hne hparse
    cases n with
    | zero => omega
    | succ k =>
      have h0 : (resp idx).status = 429 := by simpa using h 0 (by omega)
      simp only [runLocations, if_pos h0]
      exact ih k (idx + 1) (some (resp idx).body) t d2
        (fun i hi => by
          rw [show idx + 1 + i = idx + (i + 1) by omega]
          exact h (i + 1) (by omega))
        (by omega)
        (by rw [show idx + 1 + jj = idx + (jj + 1) by omega]; exact h200)
        (by rw [show idx + 1 + jj = idx + (jj + 1) by omega]; exact h299)
        (by rw [show idx + 1 + jj = idx + (jj + 1) by omega]; exact htext)
        hne hparse

/-- C3: when every location is rate-limited on the first attempt and some
location answers a successful parseable response on the second (all
locations before it still rate-limited), the call waits the backoff delay
for attempt index 0 and yields the parsed result instead of raising; and
when every location of every attempt is rate-limited, only then does the
call raise the rate-limit error carrying the last 429 response body. -/
theorem C3_rate_limit_retry :
    (∀ (resp : Nat → Nat → HttpResponse) (parse : String → Except String RawReceipt)
        (numLocs j : Nat) (t : String) (d2 : RawReceipt),
      (∀ i < numLocs, (resp 0 i).status = 429) →
      j < numLocs →
      (∀ i < j, (resp 1 i).status = 429) →
      200 ≤ (resp 1 j).status → (resp 1 j).status ≤ 299 →
      (resp 1 j).text = some t → t ≠ "" → parse t = Except.ok d2 →
      (callGemini resp parse numLocs).result = Except.ok d2 ∧
      (callGemini resp parse numLocs).waits = [backoffWaitMs 0]) ∧
    (∀ (resp : Nat → Nat → HttpResponse) (parse : String → Except String RawReceipt)
        (numLocs : Nat),
      0 < numLocs →
      (∀ a < geminiMaxAttempts, ∀ i < numLocs, (resp a i).status = 429) →
      (callGemini resp parse numLocs).result =
        Except.error ("Vertex AI error (429): " ++ (resp 1 (numLocs - 1)).body) ∧
      (callGemini resp parse numLocs).waits = [backoffWaitMs 0]) := by
  constructor
  · intro resp parse numLocs j t d2 h1 hj h2 h200 h299 htext hne hparse
    have hall : (runLocations (resp 0) parse 0 numLocs none).1 =
        InnerResult.all429 (some (resp 0 (0 + (numLocs - 1))).body) :=
      runLocations_all429 (resp 0) parse numLocs 0 none
        (fun i hi => by simpa using h1 i hi) (by omega)
    have hsucc : (runLocations (resp 1) parse 0 numLocs none).1 =
        InnerResult.success d2 :=
      runLocations_success (resp 1) parse j numLocs 0 none t d2
        (fun i hi => by simpa using h2 i hi) hj
        (by simpa using h200) (by simpa using h299) (by simpa using htext) hne hparse
    unfold callGemini geminiMaxAttempts
    simp only [callGeminiAttempts, hall, hsucc]
    norm_num [geminiMaxAttempts]
  · intro resp parse numLocs hpos hall
    have h0 : (runLocations (resp 0) parse 0 numLocs none).1 =
        InnerResult.all429 (some (resp 0 (0 + (numLocs - 1))).body) :=
      runLocations_all429 (resp 0) parse numLocs 0 none
        (fun i hi => by simpa using hall 0 (by norm_num [geminiMaxAttempts]) i hi) (by omega)
    have h1 : (runLocations (resp 1) parse 0 numLocs none).1 =
        InnerResult.all429 (some (resp 1 (0 + (numLocs - 1))).body) :=
      runLocations_all429 (resp 1) parse numLocs 0 none
        (fun i hi => by simpa using hall 1 (by norm_num [geminiMaxAttempts]) i hi) (by omega)
    unfold callGemini geminiMaxAttempts
    simp only [callGeminiAttempts, h0, h1]
    norm_num [geminiMaxAttempts]

/-- Witness for C3 at concrete oracles: two locations, both 429 on attempt
0, location 0 healthy on attempt 1 — the call returns the parsed reply
after one 800 ms wait; with 429 everywhere the call raises the rate-limit
error carrying the last 429 body. -/
theorem C3_rate_limit_retry_witness :
    ((callGemini wResp429 wParse 2).result = Except.ok wRaw ∧
      (callGemini wResp429 wParse 2).waits = [backoffWaitMs 0]) ∧
    ((callGemini wRespAll429 wParse 2).result =
        Except.error "Vertex AI error (429): rate11" ∧
      (callGemini wRespAll429 wParse 2).waits = [backoffWaitMs 0]) := by
  constructor
  · exact C3_rate_limit_retry.1 wResp429 wParse 2 0 "T" wRaw
      (by decide) (by decide) (by omega) (by decide) (by decide) (by rfl) (by decide) (by rfl)
  · have h := C3_rate_limit_retry.2 wRespAll429 wParse 2 (by decide)
      (by decide)
    exact ⟨h.1, h.2⟩

theorem range_map_shift (idx k : Nat) :
    idx :: (List.range k).map (fun i => idx + 1 + i) =
      (List.range (k + 1)).map (fun i => idx + i) := by
  rw [List.range_succ_eq_map, List.map_cons, List.map_map]
  congr 1
  exact List.map_congr_left (fun i _ => by simp only [Function.comp_apply]; omega)

theorem runLocations_thrown_at (resp : Nat → HttpResponse)
    (parse : String → Except String RawReceipt) :
    ∀ (j n idx : Nat) (last : Option String) (s : Nat),
      (∀ i < j, (resp (idx + i)).status = 429) → j < n →
      (resp (idx + j)).status = s → s ≠ 429 → ¬ (200 ≤ s ∧ s ≤ 299) →
      runLocations resp parse idx n last =
        (InnerResult.thrown
           ("Vertex AI error (" ++ toString s ++ "): " ++ (resp (idx + j)).body),
         (List.range (j + 1)).map (fun i => idx + i)) := by
  intro j
  induction j with
  | zero =>
    intro n idx last s _ hj hs hne hok
    cases n with
    | zero => omega
    | succ k =>
      rw [show idx + 0 = idx by omega] at hs ⊢
      have hne429 : ¬ (resp idx).status = 429 := by rw [hs]; exact hne
      have hnok : ¬ (200 ≤ (resp idx).status ∧ (resp idx).status ≤ 299) := by
        rw [hs]; exact hok
      simp only [runLocations, if_neg hne429, if_neg hnok]
      rw [hs]
      simp [List.range_succ]
  | succ jj ih =>
    intro n idx last s h hj hs hne hok
    cases n with
    | zero => omega
    | succ k =>
      have h0 : (resp idx).status = 429 := by simpa using h 0 (by omega)
      simp only [runLocations, if_pos h0]
      rw [ih k (idx + 1) (some (resp idx).body) s
        (fun i hi => by
          rw [show idx + 1 + i = idx + (i + 1) by omega]
          exact h (i + 1) (by omega))
        (by omega)
        (by rw [show idx + 1 + jj = idx + (jj + 1) by omega]; exact hs)
        hne hok]
      rw [show idx + 1 + jj = idx + (jj + 1) by omega]
      rw [range_map_shift idx (jj + 1)]

theorem runLocations_all429_requests (resp : Nat → HttpResponse)
    (parse : String → Except String RawReceipt) :
    ∀ (n idx : Nat) (last : Option String),
      (∀ i < n, (resp (idx + i)).status = 429) →
      (runLocations resp parse idx n last).2 =
        (List.range n).map (fun i => idx + i) := by
  intro n
  induction n with
  | zero => intro idx last _; rfl
  | succ k ih =>
    intro idx last h
    have h0 : (resp idx).status = 429 := by simpa using h 0 (by omega)
    simp only [runLocations, if_pos h0]
    rw [ih (idx + 1) (some (resp idx).body)
      (fun i hi => by
        rw [show idx + 1 + i = idx + (i + 1) by omega]
        exact h (i + 1) (by omega))]
    exact range_map_shift idx k

theorem map_pair_of_map_zero_add (a k : Nat) :
    ((List.range k).map (fun i => 0 + i)).map (fun i => (a, i)) =
      (List.range k).map (fun i => (a, i)) := by
  rw [List.map_map]
  exact List.map_congr_left (fun i _ => by simp [Function.comp])

/-- C4: whenever execution reaches a location whose response has a non-2xx
status other than 429 — at any position of the first attempt (after
rate-limited earlier locations), or at any position of the second attempt
(after an all-rate-limited first attempt) — the call fails immediately with
the upstream status and body: the requests stop exactly at that location
(no later location is tried, no further attempt starts) and no additional
backoff wait happens. -/
theorem C4_hard_error_immediate :
    (∀ (resp : Nat → Nat → HttpResponse) (parse : String → Except String RawReceipt)
        (numLocs j s : Nat),
      j < numLocs →
      (∀ i < j, (resp 0 i).status = 429) →
      (resp 0 j).status = s → s ≠ 429 → ¬ (200 ≤ s ∧ s ≤ 299) →
      callGemini resp parse numLocs =
        ⟨Except.error ("Vertex AI error (" ++ toString s ++ "): " ++ (resp 0 j).body),
         (List.range (j + 1)).map (fun i => (0, i)), []⟩) ∧
    (∀ (resp : Nat → Nat → HttpResponse) (parse : String → Except String RawReceipt)
        (numLocs j s : Nat),
      (∀ i < numLocs, (resp 0 i).status = 429) →
      j < numLocs →
      (∀ i < j, (resp 1 i).status = 429) →
      (resp 1 j).status = s → s ≠ 429 → ¬ (200 ≤ s ∧ s ≤ 299) →
      callGemini resp parse numLocs =
        ⟨Except.error ("Vertex AI error (" ++ toString s ++ "): " ++ (resp 1 j).body),
         (List.range numLocs).map (fun i => (0, i)) ++
           (List.range (j + 1)).map (fun i => (1, i)),
         [backoffWaitMs 0]⟩) := by
  constructor
  · intro resp parse numLocs j s hj hpre hs hne hok
    have hrun := runLocations_thrown_at (resp 0) parse j numLocs 0 none s
      (fun i hi => by simpa using hpre i hi) hj (by simpa using hs) hne hok
    unfold callGemini geminiMaxAttempts
    simp only [callGeminiAttempts, hrun]
    rw [map_pair_of_map_zero_add 0 (j + 1)]
    rw [show (0 : Nat) + j = j by omega]
  · intro resp parse numLocs j s hall0 hj hpre hs hne hok
    have h0run1 := runLocations_all429 (resp 0) parse numLocs 0 none
      (fun i hi => by simpa using hall0 i hi) (by omega)
    have h0run2 := runLocations_all429_requests (resp 0) parse numLocs 0 none
      (fun i hi => by simpa using hall0 i hi)
    have h1run := runLocations_thrown_at (resp 1) parse j numLocs 0 none s
      (fun i hi => by simpa using hpre i hi) hj (by simpa using hs) hne hok
    unfold callGemini geminiMaxAttempts
    simp only [callGeminiAttempts, h0run1, h0run2, h1run]
    norm_num [geminiMaxAttempts]

/-- Witness for C4 at concrete oracles: a hard 500 at the second location
of attempt 0 (after a 429 at the first) fails at once with the requests
ending there and no waits; a hard 502 at the first location of attempt 1
(after an all-429 attempt 0) fails at once with only the one backoff wait
already performed. -/
theorem C4_hard_error_immediate_witness :
    callGemini wRespHardAt1 wParse 2 =
      ⟨Except.error "Vertex AI error (500): boom", [(0, 0), (0, 1)], []⟩ ∧
    callGemini wRespHardA1 wParse 2 =
      ⟨Except.error "Vertex AI error (502): bad gateway",
       [(0, 0), (0, 1), (1, 0)], [backoffWaitMs 0]⟩ := by
  constructor
  · exact C4_hard_error_immediate.1 wRespHardAt1 wParse 2 1 500 (by decide)
      (by decide) (by rfl) (by decide) (by decide)
  · exact C4_hard_error_immediate.2 wRespHardA1 wParse 2 0 502 (by decide)
      (by decide) (by decide) (by rfl) (by decide) (by decide)

/-! ## Claim C5: per-page aggregation invariant of `processPdf` -/

theorem processPdfLoop_lengths
    (perPage : Nat → List Nat → Except String ReceiptData × List Effect) :
    ∀ (pages : List (List Nat)) (k : Nat),
      (processPdfLoop perPage pages k).1.length +
        (processPdfLoop perPage pages k).2.1.length = pages.length := by
  intro pages
  induction pages with
  | nil => intro k; rfl
  | cons p rest ih =>
    intro k
    cases hp : (perPage (k + 1) p).1 with
    | ok rd =>
      simp only [processPdfLoop, hp, List.length_cons]
      have := ih (k + 1)
      omega
    | error m =>
      simp only [processPdfLoop, hp, List.length_cons]
      have := ih (k + 1)
      omega

/-- C5: every page of a multi-page source contributes exactly one entry to
the succeeded list or to the failed list, so their lengths sum to the page
count; the batch is reported as a failure exactly when no page succeeded;
otherwise its message states how many of the total pages succeeded (with a
failed-page count when some pages failed) and the succeeded records are
returned. -/
theorem C5_batch_invariant (env : Env) (o : Oracles) (pages : List (List Nat)) :
    (processPdfCore env o pages).1.length +
      (processPdfCore env o pages).2.1.length = pages.length ∧
    ((processPdf env o pages).1.success = false ↔ (processPdfCore env o pages).1 = []) ∧
    ((processPdfCore env o pages).1 ≠ [] →
      (processPdf env o pages).1.message =
        "PDF " ++ toString pages.length ++ "ページ中" ++
          toString (processPdfCore env o pages).1.length ++ "ページ保存完了" ++
          (if (processPdfCore env o pages).2.1.length > 0 then
            " (" ++ toString (processPdfCore env o pages).2.1.length ++ "ページ失敗)"
          else "") ∧
      (processPdf env o pages).1.results = some (processPdfCore env o pages).1) := by
  refine ⟨processPdfLoop_lengths (processPdfPage env o) pages 0, ?_, ?_⟩
  · by_cases hz : (processPdfCore env o pages).1.length = 0
    · simp only [processPdf, if_pos hz]
      simpa using List.length_eq_zero.mp hz
    · simp only [processPdf, if_neg hz]
      constructor
      · intro hfalse; exact absurd hfalse (by simp)
      · intro hnil; exact absurd (by simp [hnil]) hz
  · intro hne
    have hz : ¬ (processPdfCore env o pages).1.length = 0 := by
      simpa using fun h => hne (List.length_eq_zero.mp h)
    simp only [processPdf, if_neg hz]
    constructor
    all_goals first | rfl | trivial

/-- Witness for C5: three pages with only page 2 failing — two succeeded,
the failed list records page 2 with its reason, the sum is 3 and the batch
is a partial success stating 2 of 3 pages saved. -/
theorem C5_batch_invariant_witness :
    (processPdfCore wEnv wOraclesP2Fail [[1], [2], [3]]).1.length +
      (processPdfCore wEnv wOraclesP2Fail [[1], [2], [3]]).2.1.length = 3 ∧
    (processPdfCore wEnv wOraclesP2Fail [[1], [2], [3]]).1.length = 2 ∧
    (processPdfCore wEnv wOraclesP2Fail [[1], [2], [3]]).2.1 =
      ["ページ2: Vertex AI error (500): boom"] ∧
    (processPdf wEnv wOraclesP2Fail [[1], [2], [3]]).1.success = true ∧
    (processPdf wEnv wOraclesP2Fail [[1], [2], [3]]).1.message =
      "PDF 3ページ中2ページ保存完了 (1ページ失敗)" := by
  have h := C5_batch_invariant wEnv wOraclesP2Fail [[1], [2], [3]]
  refine ⟨h.1, by rfl, by rfl, ?_, ?_⟩
  · have hiff := h.2.1
    cases hs : (processPdf wEnv wOraclesP2Fail [[1], [2], [3]]).1.success with
    | false => exact absurd (hiff.mp hs) (by decide)
    | true => rfl
  · exact ((h.2.2 (by decide)).1).trans (by rfl)

/-! ## Claim C6: defaults for missing parsed fields -/

/-- C6: whatever the parse produced, when the single-page pipeline succeeds
the stored record defaults every absent field without raising: an absent
date becomes the current processing date, an absent category becomes
`その他`, an absent vendor becomes `不明`, and an absent amount becomes 0. -/
theorem C6_missing_field_defaults (env : Env) (o : Oracles) (f : FileInput)
    (raw : RawReceipt)
    (hcall : (callGemini (o.gemini 0) o.parse env.numLocations).result = Except.ok raw)
    (hsucc : (processSinglePage env o f).1.success = true) :
    ∃ rd, (processSinglePage env o f).1.data = some rd ∧
      (raw.date = none → rd.date = env.today) ∧
      (raw.category = none → rd.category = "その他") ∧
      (raw.vendor = none → rd.vendor = "不明") ∧
      (raw.amount = none → rd.amount = 0) := by
  simp only [processSinglePage] at hsucc ⊢
  rw [hcall] at hsucc ⊢
  dsimp only at hsucc ⊢
  cases hroute : routeParentFolder env.drive env.rootId (orElseStr raw.date env.today) with
  | error e => rw [hroute] at hsucc; dsimp only at hsucc; simp at hsucc
  | ok pid =>
    rw [hroute] at hsucc
    dsimp only at hsucc ⊢
    cases hcat : resolveCategoryFolder env.drive (orElseStr raw.category "その他") pid with
    | error e => rw [hcat] at hsucc; dsimp only at hsucc; simp at hsucc
    | ok tid =>
      rw [hcat] at hsucc
      dsimp only at hsucc ⊢
      cases hup : o.upload
          (orElseStr raw.date env.today ++ "_" ++ orElseStr raw.category "その他" ++ "_" ++
            orElseStr raw.vendor "不明" ++ ".jpg") tid f.bytes
          (if f.mimeType = "" then "image/jpeg" else f.mimeType) with
      | error e => rw [hup] at hsucc; dsimp only at hsucc; simp at hsucc
      | ok u =>
        dsimp only
        refine ⟨_, rfl, ?_, ?_, ?_, ?_⟩ <;> intro h <;> simp [h, orElseStr]

/-- Witness for C6: with a parsed reply whose fields are all absent, the
filed record carries today's date, category `その他`, vendor `不明` and
amount 0, and the call succeeded (nothing was raised). -/
theorem C6_missing_field_defaults_witness :
    (processSinglePage wEnv wOraclesE wFile).1.success = true ∧
    ((processSinglePage wEnv wOraclesE wFile).1.data.map ReceiptData.date) =
      some wEnv.today ∧
    ((processSinglePage wEnv wOraclesE wFile).1.data.map ReceiptData.category) =
      some "その他" ∧
    ((processSinglePage wEnv wOraclesE wFile).1.data.map ReceiptData.vendor) =
      some "不明" ∧
    ((processSinglePage wEnv wOraclesE wFile).1.data.map ReceiptData.amount) =
      some 0 := by
  obtain ⟨rd, hdata, h1, h2, h3, h4⟩ := C6_missing_field_defaults wEnv wOraclesE wFile
    ⟨none, none, none, none⟩ (by rfl) (by rfl)
  rw [hdata]
  exact ⟨by rfl, by simp [h1 rfl], by simp [h2 rfl], by simp [h3 rfl], by simp [h4 rfl]⟩

/-! ## Claim C7: stored filename convention -/

theorem orElseStr_eq_getD (o : Option String) (d : String) (h : o ≠ some "") :
    orElseStr o d = o.getD d := by
  cases o with
  | none => rfl
  | some s =>
    have hs : ¬ s = "" := fun he => h (by rw [he])
    simp [orElseStr, hs]

/-- Counterexample to C7 as stated: a successfully filed page whose parsed
vendor is present but empty stores vendor `""` in its record while the
filename uses the `不明` placeholder, so the stored filename is not
`{date}_{category}_{vendor}.jpg` computed from the record's fields. -/
theorem C7_filename_counterexample :
    (processSinglePage wEnv wOraclesV wFile).1.success = true ∧
    (processSinglePage wEnv wOraclesV wFile).1.data =
      some ⟨"2026-01-15", 100, "", "交通費", "2026-01-15_交通費_不明.jpg"⟩ ∧
    ("2026-01-15_交通費_不明.jpg" : String) ≠
      specSingleName "2026-01-15" "交通費" "" :=
  ⟨by rfl, by rfl, by decide⟩

/-- C7 amended: for every successfully filed page whose parsed vendor is
not the empty string, the stored filename is
`{date}_{category}_{vendor}.jpg` for a single-page source and
`{date}_{category}_{vendor}_p{pageNumber}.png` for 1-based page
`pageNumber` of a multi-page source, computed from the record's own fields
(when the parsed vendor is the empty string, the filename uses the
`不明` placeholder while the record keeps the empty vendor). -/
theorem C7_filename_convention :
    (∀ (env : Env) (o : Oracles) (f : FileInput) (raw : RawReceipt) (rd : ReceiptData),
      (callGemini (o.gemini 0) o.parse env.numLocations).result = Except.ok raw →
      raw.vendor ≠ some "" →
      (processSinglePage env o f).1.data = some rd →
      rd.fileName = specSingleName rd.date rd.category rd.vendor) ∧
    (∀ (env : Env) (o : Oracles) (p : Nat) (pb : List Nat) (raw : RawReceipt)
        (rd : ReceiptData),
      (callGemini (o.gemini p) o.parse env.numLocations).result = Except.ok raw →
      raw.vendor ≠ some "" →
      (processPdfPage env o p pb).1 = Except.ok rd →
      rd.fileName = specPdfName rd.date rd.category rd.vendor p) := by
  constructor
  · intro env o f raw rd hcall hv hdata
    simp only [processSinglePage] at hdata
    rw [hcall] at hdata
    dsimp only at hdata
    cases hroute : routeParentFolder env.drive env.rootId (orElseStr raw.date env.today) with
    | error e => rw [hroute] at hdata; dsimp only at hdata; simp at hdata
    | ok pid =>
      rw [hroute] at hdata
      dsimp only at hdata
      cases hcat : resolveCategoryFolder env.drive (orElseStr raw.category "その他") pid with
      | error e => rw [hcat] at hdata; dsimp only at hdata; simp at hdata
      | ok tid =>
        rw [hcat] at hdata
        dsimp only at hdata
        cases hup : o.upload
            (orElseStr raw.date env.today ++ "_" ++ orElseStr raw.category "その他" ++ "_" ++
              orElseStr raw.vendor "不明" ++ ".jpg") tid f.bytes
            (if f.mimeType = "" then "image/jpeg" else f.mimeType) with
        | error e => rw [hup] at hdata; dsimp only at hdata; simp at hdata
        | ok u =>
          rw [hup] at hdata
          dsimp only at hdata
          simp only [Option.some.injEq] at hdata
          subst hdata
          simp [specSingleName, orElseStr_eq_getD raw.vendor "不明" hv]
  · intro env o p pb raw rd hcall hv hdata
    simp only [processPdfPage] at hdata
    rw [hcall] at hdata
    dsimp only at hdata
    cases hroute : routeParentFolder env.drive env.rootId (orElseStr raw.date env.today) with
    | error e => rw [hroute] at hdata; dsimp only at hdata; simp at hdata
    | ok pid =>
      rw [hroute] at hdata
      dsimp only at hdata
      cases hcat : resolveCategoryFolder env.drive (orElseStr raw.category "その他") pid with
      | error e => rw [hcat] at hdata; dsimp only at hdata; simp at hdata
      | ok tid =>
        rw [hcat] at hdata
        dsimp only at hdata
        cases hup : o.upload
            (orElseStr raw.date env.today ++ "_" ++ orElseStr raw.category "その他" ++ "_" ++
              orElseStr raw.vendor "不明" ++ "_p" ++ toString p ++ ".png") tid pb "image/png" with
        | error e => rw [hup] at hdata; dsimp only at hdata; simp at hdata
        | ok u =>
          rw [hup] at hdata
          dsimp only at hdata
          simp only [Except.ok.injEq] at hdata
          subst hdata
          simp [specPdfName, orElseStr_eq_getD raw.vendor "不明" hv]

/-- Witness for C7 amended, at concrete successful runs of both paths:
page 2 of a multi-page source yields a name ending in `_p2.png`. -/
theorem C7_filename_convention_witness :
    (processSinglePage wEnv wOracles wFile).1.data =
      some ⟨"2026-01-15", 1200, "駅前タクシー", "交通費", "2026-01-15_交通費_駅前タクシー.jpg"⟩ ∧
    ("2026-01-15_交通費_駅前タクシー.jpg" : String) =
      specSingleName "2026-01-15" "交通費" "駅前タクシー" ∧
    (processPdfPage wEnv wOracles 2 [7]).1 =
      Except.ok ⟨"2026-01-15", 1200, "駅前タクシー", "交通費",
        "2026-01-15_交通費_駅前タクシー_p2.png"⟩ ∧
    ("2026-01-15_交通費_駅前タクシー_p2.png" : String) =
      specPdfName "2026-01-15" "交通費" "駅前タクシー" 2 := by
  refine ⟨by rfl, ?_, by rfl, ?_⟩
  · exact C7_filename_convention.1 wEnv wOracles wFile wRaw
      ⟨"2026-01-15", 1200, "駅前タクシー", "交通費", "2026-01-15_交通費_駅前タクシー.jpg"⟩
      (by rfl) (by decide) (by rfl)
  · exact C7_filename_convention.2 wEnv wOracles 2 [7] wRaw
      ⟨"2026-01-15", 1200, "駅前タクシー", "交通費", "2026-01-15_交通費_駅前タクシー_p2.png"⟩
      (by rfl) (by decide) (by rfl)

/-! ## Claim C9: empty-file guard of `processReceipt` -/

/-- C9: a missing "file" entry or a zero-size file makes `processReceipt`
return the fixed empty-file failure with no model call, no directory
lookup and no store operation (the effect trace is empty). -/
theorem C9_empty_file (env : Env) (o : Oracles) (pages : List (List Nat))
    (file : Option FileInput)
    (h : file = none ∨ ∃ f, file = some f ∧ f.size = 0) :
    processReceipt env o pages file =
      (⟨false, "ファイルが空です", none, none⟩, ([] : List Effect)) := by
  rcases h with h | ⟨f, hf, hsize⟩
  · subst h; rfl
  · subst hf
    simp only [processReceipt]
    rw [if_pos hsize]

/-- Witness for C9: a missing entry and a zero-size file both return the
empty-file failure with an empty effect trace. -/
theorem C9_empty_file_witness :
    processReceipt wEnv wOracles [] none =
      (⟨false, "ファイルが空です", none, none⟩, ([] : List Effect)) ∧
    processReceipt wEnv wOracles [] (some ⟨"r.jpg", "image/jpeg", 0, []⟩) =
      (⟨false, "ファイルが空です", none, none⟩, ([] : List Effect)) :=
  ⟨C9_empty_file wEnv wOracles [] none (Or.inl rfl),
   C9_empty_file wEnv wOracles [] (some ⟨"r.jpg", "image/jpeg", 0, []⟩)
     (Or.inr ⟨_, rfl, rfl⟩)⟩

/-! ## Claim C10: multi-page dispatch predicate -/

theorem processSinglePage_trace_shape (env : Env) (o : Oracles) (f : FileInput) :
    ∀ e ∈ (processSinglePage env o f).2,
      e = Effect.geminiCall f.bytes (if f.mimeType = "" then "image/jpeg" else f.mimeType) ∨
      (∃ pid, e = Effect.driveQuery pid) ∨
      (∃ nm fid mi, e = Effect.upload nm fid f.bytes mi) := by
  simp only [processSinglePage]
  cases (callGemini (o.gemini 0) o.parse env.numLocations).result with
  | error e => dsimp only; intro x hx; simp at hx; simp [hx]
  | ok data =>
    dsimp only
    cases routeParentFolder env.drive env.rootId (orElseStr data.date env.today) with
    | error e => dsimp only; intro x hx; simp at hx; rcases hx with hx | hx <;> simp [hx]
    | ok pid =>
      dsimp only
      cases resolveCategoryFolder env.drive (orElseStr data.category "その他") pid with
      | error e =>
        dsimp only; intro x hx; simp at hx
        rcases hx with hx | hx | hx <;> simp [hx]
      | ok tid =>
        dsimp only
        cases o.upload
            (orElseStr data.date env.today ++ "_" ++ orElseStr data.category "その他" ++ "_" ++
              orElseStr data.vendor "不明" ++ ".jpg") tid f.bytes
            (if f.mimeType = "" then "image/jpeg" else f.mimeType) with
        | error e =>
          dsimp only; intro x hx; simp at hx
          rcases hx with hx | hx | hx | hx <;> simp [hx]
        | ok u =>
          dsimp only; intro x hx; simp at hx
          rcases hx with hx | hx | hx | hx <;> simp [hx]

/-- C10: a non-empty file takes the multi-page path exactly when its MIME
type is `application/pdf` or its lowercased name ends in `.pdf` (the PDF
split is performed there and never on the single path); every other file is
processed as a single page and every byte sequence it stores equals the
uploaded bytes. -/
theorem C10_pdf_dispatch (env : Env) (o : Oracles) (pages : List (List Nat))
    (f : FileInput) (hsize : f.size ≠ 0) :
    (isPdfUpload f →
      processReceipt env o pages (some f) = processPdf env o pages ∧
      Effect.pdfConvert ∈ (processReceipt env o pages (some f)).2) ∧
    (¬ isPdfUpload f →
      processReceipt env o pages (some f) = processSinglePage env o f ∧
      Effect.pdfConvert ∉ (processReceipt env o pages (some f)).2 ∧
      (∀ nm fid b mi, Effect.upload nm fid b mi ∈ (processReceipt env o pages (some f)).2 →
        b = f.bytes)) := by
  have hcond : (f.mimeType == "application/pdf" || endsWithJS (toLowerJS f.name) ".pdf") = true ↔
      isPdfUpload f := by
    simp [isPdfUpload, Bool.or_eq_true, beq_iff_eq]
  constructor
  · intro hpdf
    have hb : (f.mimeType == "application/pdf" || endsWithJS (toLowerJS f.name) ".pdf") = true :=
      hcond.mpr hpdf
    have heq : processReceipt env o pages (some f) = processPdf env o pages := by
      simp only [processReceipt]
      rw [if_neg hsize, if_pos hb]
    refine ⟨heq, ?_⟩
    rw [heq]
    simp only [processPdf]
    split <;> simp
  · intro hnp
    have hb : (f.mimeType == "application/pdf" || endsWithJS (toLowerJS f.name) ".pdf") = false := by
      cases hc : (f.mimeType == "application/pdf" || endsWithJS (toLowerJS f.name) ".pdf") with
      | false => rfl
      | true => exact absurd (hcond.mp hc) hnp
    have heq : processReceipt env o pages (some f) = processSinglePage env o f := by
      simp only [processReceipt]
      rw [if_neg hsize, if_neg (by simp [hb])]
    refine ⟨heq, ?_, ?_⟩
    · rw [heq]
      intro hmem
      rcases processSinglePage_trace_shape env o f Effect.pdfConvert hmem with
        h | ⟨pid, h⟩ | ⟨nm, fid, mi, h⟩ <;> simp at h
    · rw [heq]
      intro nm fid b mi hmem
      rcases processSinglePage_trace_shape env o f (Effect.upload nm fid b mi) hmem with
        h | ⟨pid, h⟩ | ⟨nm2, fid2, mi2, h⟩ <;> simp at h
      exact h.2.2.1

/-- Witness for C10: an uppercase `.PDF` name dispatches to the multi-page
path; a JPEG upload stays on the single path and its upload effect carries
exactly the uploaded bytes. -/
theorem C10_pdf_dispatch_witness :
    processReceipt wEnv wOracles [[1]] (some ⟨"scan.PDF", "", 3, [1, 2]⟩) =
      processPdf wEnv wOracles [[1]] ∧
    processReceipt wEnv wOracles [] (some wFile) = processSinglePage wEnv wOracles wFile ∧
    Effect.pdfConvert ∉ (processReceipt wEnv wOracles [] (some wFile)).2 ∧
    ((Effect.upload "2026-01-15_交通費_駅前タクシー.jpg" "idKotsu" [9] "image/jpeg") ∈
        (processReceipt wEnv wOracles [] (some wFile)).2 → ([9] : List Nat) = wFile.bytes) := by
  have h1 := (C10_pdf_dispatch wEnv wOracles [[1]] ⟨"scan.PDF", "", 3, [1, 2]⟩
    (by decide)).1 (Or.inr (by rfl))
  have h2 := (C10_pdf_dispatch wEnv wOracles [] wFile (by decide)).2 (by
    intro hc
    rcases hc with hc | hc
    · exact absurd hc (by decide)
    · exact absurd hc (by decide))
  exact ⟨h1.1, h2.1, h2.2.1, h2.2.2 _ _ _ _⟩

end ForeverFinance
